import Mathlib

/-!
Verification of the go-restclient HTTP client library (racker/go-restclient).

The Go source is shallowly embedded below.  Machine-level concerns that no
claim depends on are abstracted: URL parsing (`net/url`), the timeout
context, and the actual network transport (`http.DefaultClient.Do`), which
is passed in as an explicit function.  The JSON codec (`encoding/json`) is
likewise passed in as an opaque encode/decode function, since the claims
treat serialization as opaque.  Time (`time.Time`) is embedded as `Int`
nanoseconds, with the Go zero value embedded as `0`.  Byte sequences
(`[]byte`) are embedded as `List Nat`.

Side effects that the claims observe — the order in which interceptors run,
whether the network send happened, whether the response body was closed,
which credentials payload the token authenticator sent — are made explicit:
the interceptor chain returns an event trace, and exchange/intercept results
are records carrying the observable outcome.
-/

namespace RestClient

/-- Embedding of Go byte strings: `[]byte` as a list of byte values. -/
abbrev Bytes := List Nat

/-- `string` → `[]byte` conversion (Go `[]byte(s)` / `bytes.NewBufferString`). -/
def strBytes (s : String) : Bytes := s.data.map (fun c => c.toNat)

/-- `[]byte` → `string` conversion (Go `buffer.String()`). -/
def stringFromBytes (b : Bytes) : String := String.mk (b.map (fun n => Char.ofNat n))

/-- The runtime shape of an `Entity.Content` value (Go `interface{}`).
`nilC` is the nil interface; `str`, `bytes` are literal payloads; `reader`
and `writer` are opaque `io.Reader` / `io.Writer` handles; `structured` is
any other non-nil Go value (a typed reference for JSON use), identified by
an opaque id. -/
inductive Content where
  | nilC
  | str (s : String)
  | bytes (b : Bytes)
  | reader (h : Nat)
  | writer (h : Nat)
  | structured (v : Nat)
deriving DecidableEq, Repr

/-- Go `MimeType` constants. -/
def JsonType : String := "application/json"

def TextType : String := "text/plain"

/-- Go `Entity`: a content-type tag paired with a content reference. -/
structure Entity where
  contentType : String
  content : Content
deriving DecidableEq, Repr

/-- Go `NewJsonEntity`. -/
def NewJsonEntity (c : Content) : Entity := ⟨JsonType, c⟩

/-- Go `NewTextEntity`. -/
def NewTextEntity (s : String) : Entity := ⟨TextType, .str s⟩

/-- Go error values, as far as the library distinguishes them:
a plain message (`errors.New` / `fmt.Errorf` without `%w`), a
`FailedResponseError`, or a wrapping error (`fmt.Errorf("...: %w", err)`). -/
inductive GoErr where
  | msg (s : String)
  | failedResponse (statusCode : Nat) (status : String) (entity : Entity)
  | wrapped (s : String) (cause : GoErr)
deriving DecidableEq, Repr

/-- Whether an error is (at top level) a `FailedResponseError`. -/
def GoErr.isFailedResponse : GoErr → Bool
  | .failedResponse _ _ _ => true
  | _ => false

/-- The request body handed to `http.NewRequestWithContext` (an `io.Reader`
in Go): absent, an in-memory byte buffer, or a passed-through stream. -/
inductive Body where
  | noBody
  | bytes (b : Bytes)
  | stream (h : Nat)
deriving DecidableEq, Repr

/-- Embedding of `http.Request`: the pieces the library touches. -/
structure Request where
  urlStr : String
  headers : List (String × String)
  body : Body
deriving DecidableEq, Repr

/-- Go `req.Header.Set`: replace any existing value for the key. -/
def setHeader (r : Request) (k v : String) : Request :=
  { r with headers := (k, v) :: r.headers.filter (fun p => p.1 ≠ k) }

/-- Go `req.Header.Get`. -/
def getHeader (r : Request) (k : String) : Option String :=
  (r.headers.find? (fun p => p.1 = k)).map (fun p => p.2)

/-- Embedding of `http.Response`: status code, status line, declared
Content-Type header, the body bytes still to be drained, and the result
the body's `Close()` will return. -/
structure Response where
  statusCode : Nat
  status : String
  contentTypeHeader : String
  body : Bytes
  closeErr : Option GoErr
deriving DecidableEq, Repr

/-- A Go `(resp *http.Response, err error)` pair, both components optional
exactly as both are nilable in Go. -/
abbrev ChainRes := Option Response × Option GoErr

/-- Observable events of one exchange: the actual network send performed by
the terminal chain link, and numbered marks emitted by logging interceptors
before and after their call to `next` (used to state ordering). -/
inductive Event where
  | send (req : Request)
  | pre (k : Nat)
  | post (k : Nat)
deriving DecidableEq, Repr

/-- Whether an event is the actual network send. -/
def Event.isSend : Event → Bool
  | .send _ => true
  | _ => false

/-- Go `NextCallback`, with the event trace made explicit. -/
abbrev NextCallback := Request → List Event × ChainRes

/-- Go `Interceptor`, with the event trace made explicit. -/
abbrev Interceptor := Request → NextCallback → List Event × ChainRes

/-- The transport at the end of the chain (`http.DefaultClient.Do`). -/
abbrev Transport := Request → ChainRes

/-- Go `Client.AddInterceptor`: `list.PushBack`, i.e. append. -/
def addInterceptor (l : List Interceptor) (it : Interceptor) : List Interceptor :=
  l ++ [it]

/-- Registering a sequence of interceptors one by one on a fresh client. -/
def registerAll (l : List Interceptor) : List Interceptor :=
  l.foldl addInterceptor []

/-- The `if err != nil { return nil, err } else { return response, err }`
normalization at the end of `Client.doRequest`. -/
def normalizeRes : ChainRes → ChainRes
  | (_, some e) => (none, some e)
  | (response, none) => (response, none)

/-- Go `Client.doRequest`: recursively process the interceptor list; when
none remain, issue the actual request via the transport and return its
result as-is. -/
def doRequest (t : Transport) : Request → List Interceptor → List Event × ChainRes
  | req, [] => ([Event.send req], t req)
  | req, i :: rest =>
      let r := i req (fun newReq => doRequest t newReq rest)
      match r.2.2 with
      | some e => (r.1, (none, some e))
      | none => (r.1, (r.2.1, none))

/-- A well-behaved logging interceptor: emits a `pre` mark, calls `next`
exactly once with the unchanged request, emits a `post` mark, and passes
the result through. -/
def wrap (k : Nat) : Interceptor := fun req next =>
  let r := next req
  (Event.pre k :: r.1 ++ [Event.post k], r.2)

/-- An interceptor that returns `(r, e)` with `e` a non-nil error, without
calling `next`. -/
def erring (r : Option Response) (e : GoErr) : Interceptor := fun _ _ => ([], (r, some e))

/-! ## Exchange pipeline

`Client.ExchangeWithContext` is embedded in pieces following the source:
`buildBodyReader`, `buildRequest`, the interceptor chain (`doRequest`
above), and the response-handling tail (status classification, content
processing, body close), assembled in `exchangeModel`.  URL resolution
(`buildReqUrl`) and the timeout context are not embedded: no claim depends
on them, and the request URL is taken as given.  The JSON codec is an
explicit parameter: `encode` embeds `json.Encoder.Encode` on an arbitrary
Go value, `decode` embeds `json.Decoder.Decode` of the body bytes into the
content reference. -/

/-- An abstract JSON encoder (`json.Encoder.Encode` on a Go value). -/
abbrev Encoder := Content → Except String Bytes

/-- An abstract JSON decoder (`json.Decoder.Decode` of body bytes into a
content reference). -/
abbrev Decoder := Content → Bytes → Except String Unit

/-- Go `Client.buildBodyReader`: shape dispatch on the request entity's
content.  nil entity → no body; string/bytes → verbatim buffer; reader →
passed through; otherwise JSON-encode when the content type is JSON and
the content is non-nil; otherwise an unsupported-combination error. -/
def buildBodyReader (encode : Encoder) (reqIn : Option Entity) : Except GoErr Body :=
  match reqIn with
  | none => .ok .noBody
  | some en =>
    match en.content with
    | .str s => .ok (.bytes (strBytes s))
    | .bytes b => .ok (.bytes b)
    | .reader h => .ok (.stream h)
    | c =>
      if en.contentType = JsonType ∧ c ≠ .nilC then
        match encode c with
        | .ok bs => .ok (.bytes bs)
        | .error e => .error (.wrapped "failed to encode body" (.msg e))
      else
        .error (.msg "unsupported combination of request content and type")

/-- Go `Client.buildRequest`: make the request and set the Content-Type
header from the request entity and the Accept header from the expected
response entity, each only when the entity is non-nil with a non-empty
content type. -/
def buildRequest (urlStr : String) (body : Body) (reqIn respOut : Option Entity) : Request :=
  let req : Request := ⟨urlStr, [], body⟩
  let req :=
    match reqIn with
    | some en => if en.contentType ≠ "" then setHeader req "Content-Type" en.contentType else req
    | none => req
  match respOut with
  | some en => if en.contentType ≠ "" then setHeader req "Accept" en.contentType else req
  | none => req

/-- Go `Client.processResponseContent`: dispatch on the response entity's
content shape; string/bytes capture the drained body, a writer receives a
copy, otherwise JSON-decode when the content type is JSON and the content
reference is non-nil; otherwise an unsupported-combination error. -/
def processResponseContent (decode : Decoder) (respOut : Entity) (resp : Response) :
    Except GoErr Entity :=
  match respOut.content with
  | .str _ => .ok { respOut with content := .str (stringFromBytes resp.body) }
  | .bytes _ => .ok { respOut with content := .bytes resp.body }
  | .writer _ => .ok respOut
  | c =>
    if respOut.contentType = JsonType ∧ c ≠ .nilC then
      match decode c resp.body with
      | .ok _ => .ok respOut
      | .error e => .error (.wrapped "failed to decode response" (.msg e))
    else
      .error (.msg "unsupported combination of request content reference and type")

/-- Go `Client.buildFailedResponseError`: drain the whole body into a
buffer, close the body (discarding any close error), and build a
`FailedResponseError` from the status code, status line, and an entity
holding the response's declared Content-Type and the captured bytes. -/
def buildFailedResponseError (resp : Response) : GoErr :=
  .failedResponse resp.statusCode resp.status ⟨resp.contentTypeHeader, .bytes resp.body⟩

/-- The observable outcome of one exchange: whether the response body's
`Close()` was invoked, the error returned to the caller (`none` on
success), and the final state of the caller's response entity. -/
structure ExchangeOutcome where
  bodyClosed : Bool
  result : Option GoErr
  respOutFinal : Option Entity
deriving DecidableEq, Repr

/-- The final `resp.Body.Close()` of `ExchangeWithContext`: a close error
is returned wrapped; otherwise the exchange succeeds. -/
def closeAndFinish (resp : Response) (outF : Option Entity) : ExchangeOutcome :=
  match resp.closeErr with
  | some e => ⟨true, some (.wrapped "failed to close response body" e), outF⟩
  | none => ⟨true, none, outF⟩

/-- The tail of Go `Client.ExchangeWithContext` after `doRequest` returns:
wrap a chain error; classify status ≥ 300 as failure via
`buildFailedResponseError` (which also closes the body); otherwise process
the response content when a response entity was supplied, closing the body
and discarding the close error on a processing error; finally close the
body, reporting a close failure wrapped.  (A `(nil, nil)` chain result
would crash Go at `resp.StatusCode`; it is embedded as a distinct error
and is unreachable under the documented transport contract.) -/
def finishExchange (decode : Decoder) (respOut : Option Entity) : ChainRes → ExchangeOutcome
  | (_, some e) => ⟨false, some (.wrapped "failed to send request" e), respOut⟩
  | (none, none) => ⟨false, some (.msg "nil response"), respOut⟩
  | (some resp, none) =>
    if resp.statusCode ≥ 300 then
      ⟨true, some (buildFailedResponseError resp), respOut⟩
    else
      match respOut with
      | none => closeAndFinish resp none
      | some out =>
        match processResponseContent decode out resp with
        | .error e => ⟨true, some e, some out⟩
        | .ok outF => closeAndFinish resp (some outF)

/-- Go `Client.ExchangeWithContext` assembled: body building, request
building, the interceptor chain, and the response tail.  Returns the event
trace of the chain alongside the outcome; an error before the chain yields
an empty trace (no network activity). -/
def exchangeModel (encode : Encoder) (decode : Decoder) (t : Transport)
    (interceptors : List Interceptor) (urlStr : String)
    (reqIn respOut : Option Entity) : List Event × ExchangeOutcome :=
  match buildBodyReader encode reqIn with
  | .error e => ([], ⟨false, some e, respOut⟩)
  | .ok body =>
    let req := buildRequest urlStr body reqIn respOut
    let r := doRequest t req interceptors
    (r.1, finishExchange decode respOut r.2)

/-- Whether a request entity's content/type combination is accepted by
`buildBodyReader` (the complement of its final `else` branch). -/
def reqShapeSupported (en : Entity) : Bool :=
  match en.content with
  | .str _ => true
  | .bytes _ => true
  | .reader _ => true
  | .nilC => false
  | .writer _ => decide (en.contentType = JsonType)
  | .structured _ => decide (en.contentType = JsonType)

/-- Whether `buildBodyReader` reaches the JSON-encoding branch for this
entity (content type JSON and content of no earlier shape and non-nil). -/
def usesJsonEncoding (en : Entity) : Bool :=
  match en.content with
  | .writer _ => decide (en.contentType = JsonType)
  | .structured _ => decide (en.contentType = JsonType)
  | _ => false

/-! ## Identity v2 token authenticator

`identityV2AuthenticatorImpl` and its `intercept`/`authenticate` methods.
Time is `Int` (the Go zero `time.Time` is `0`; `time.Now().After(x)` is the
strict comparison `now > x`).  The nested `restClient.Exchange` against the
identity endpoint is abstracted as a function from the credentials payload
it sends to either an error or the decoded `identityAuthResp`; which
payload is handed to it is part of the observable outcome.  The nested
client's base URL and timeout configuration are not embedded (no claim
depends on them), but the `SetBaseUrl` failure path of the constructor is
kept via an explicit URL-parse-result parameter. -/

/-- The state of Go `identityV2AuthenticatorImpl`: credentials plus the
cached token and its expiration. -/
structure AuthImpl where
  username : String
  password : String
  apikey : String
  token : String
  tokenExpiration : Int
deriving DecidableEq, Repr

/-- The JSON credentials payload of the nested token request: either the
api-key flavor (`RAX-KSKEY:apiKeyCredentials`) or the password flavor
(`passwordCredentials`). -/
inductive AuthPayload where
  | apikeyCreds (username apikey : String)
  | passwordCreds (username password : String)
deriving DecidableEq, Repr

/-- The fields of the decoded identity response that the library consumes:
`access.token.id` and `access.token.expires`. -/
structure IdentityAuthResp where
  tokenId : String
  tokenExpires : Int
deriving DecidableEq, Repr

/-- The nested exchange against the identity endpoint (POST /v2.0/tokens
on the authenticator's own client), abstracted as payload → result. -/
abbrev AuthExchange := AuthPayload → Except GoErr IdentityAuthResp

/-- Go `IdentityV2Authenticator` construction: username required, then
password or apikey required, then the identity URL must parse; on success
the impl starts with the Go zero values for token and expiration. -/
def IdentityV2Authenticator (urlParse : Except String Unit)
    (username password apikey : String) : Except GoErr AuthImpl :=
  if username = "" then
    .error (.msg "username is required")
  else if password = "" ∧ apikey = "" then
    .error (.msg "password or Apikey is required")
  else
    match urlParse with
    | .error e => .error (.wrapped "invalid Identity URL" (.msg e))
    | .ok _ => .ok ⟨username, password, apikey, "", 0⟩

/-- The payload `identityV2AuthenticatorImpl.authenticate` builds: the
api-key flavor when `apikey` is non-empty, else the password flavor. -/
def buildAuthPayload (a : AuthImpl) : AuthPayload :=
  if a.apikey ≠ "" then .apikeyCreds a.username a.apikey
  else .passwordCreds a.username a.password

/-- Go `identityV2AuthenticatorImpl.authenticate`: build the credentials
payload, issue the nested exchange, wrap a failure, and on success store
the returned token id and expiration.  Returns the payload sent alongside
the result. -/
def authenticate (exch : AuthExchange) (a : AuthImpl) :
    AuthPayload × Except GoErr AuthImpl :=
  let p := buildAuthPayload a
  match exch p with
  | .error e => (p, .error (.wrapped "failed to issue token request" e))
  | .ok resp => (p, .ok { a with token := resp.tokenId, tokenExpiration := resp.tokenExpires })

/-- The observable outcome of one `intercept` call: the authenticator
state afterwards, whether a refresh (authentication sub-exchange) was
performed and with which payload, whether `next` was invoked and with
which request, and the error returned when `next` was not invoked. -/
structure InterceptOutcome where
  state : AuthImpl
  didRefresh : Bool
  payloadSent : Option AuthPayload
  nextCalled : Bool
  sentReq : Option Request
  err : Option GoErr
deriving DecidableEq, Repr

/-- Go `identityV2AuthenticatorImpl.intercept`: when the current time is
strictly after the cached expiration (`time.Now().After`), authenticate;
on authentication failure return the error without calling `next`; then
inject the cached token as the `x-auth-token` header and delegate to
`next`. -/
def intercept (exch : AuthExchange) (now : Int) (a : AuthImpl) (req : Request) :
    InterceptOutcome :=
  if now > a.tokenExpiration then
    let r := authenticate exch a
    match r.2 with
    | .error e => ⟨a, true, some r.1, false, none, some e⟩
    | .ok a2 => ⟨a2, true, some r.1, true, some (setHeader req "x-auth-token" a2.token), none⟩
  else
    ⟨a, false, none, true, some (setHeader req "x-auth-token" a.token), none⟩

/-- A sequence of intercepted calls at the given times, threading the
authenticator state and collecting the credentials payloads of all
authentication sub-exchanges performed. -/
def runCalls (exch : AuthExchange) (req : Request) :
    AuthImpl → List Int → AuthImpl × List AuthPayload
  | a, [] => (a, [])
  | a, now :: rest =>
    let o := intercept exch now a req
    let r := runCalls exch req o.state rest
    (r.1, (o.payloadSent.toList) ++ r.2)

/-! ## Sample values (used to instantiate theorems at concrete inputs) -/

/-- A sample request. -/
def sampleReq : Request := ⟨"http://svc.example/a/b", [], .noBody⟩

/-- A sample error. -/
def sampleErr : GoErr := .msg "boom"

/-- A sample successful response. -/
def sampleResp : Response := ⟨200, "200 OK", "application/json", [104, 105], none⟩

/-- A sample encoder. -/
def sampleEncode : Encoder := fun _ => .ok [123, 125]

/-- A second sample encoder, everywhere different from `sampleEncode`. -/
def sampleEncodeB : Encoder := fun _ => .error "nope"

/-- A sample decoder. -/
def sampleDecode : Decoder := fun _ _ => .ok ()

/-- A sample transport that succeeds with `sampleResp`. -/
def sampleTransport : Transport := fun _ => (some sampleResp, none)

/-- A sample transport that fails with `sampleErr` and a nil response. -/
def sampleTransportErr : Transport := fun _ => (none, some sampleErr)

/-- A sample authenticator state holding a token valid until time 5. -/
def sampleAuthState : AuthImpl := ⟨"user", "", "key", "tok", 5⟩

/-- A sample identity exchange that always succeeds. -/
def sampleAuthExchange : AuthExchange := fun _ => .ok ⟨"tok2", 100⟩

/-! ## Helper lemmas -/

theorem registerAll_foldl (acc l : List Interceptor) :
    l.foldl addInterceptor acc = acc ++ l := by
  induction l generalizing acc with
  | nil => simp
  | cons i rest ih => simp [addInterceptor, ih]

theorem registerAll_eq (l : List Interceptor) : registerAll l = l := by
  simp [registerAll, registerAll_foldl]

theorem doRequest_cons (t : Transport) (i : Interceptor) (rest : List Interceptor)
    (req : Request) :
    doRequest t req (i :: rest) =
      (let r := i req (fun newReq => doRequest t newReq rest)
       (r.1, normalizeRes r.2)) := by
  simp only [doRequest]
  rcases h : (i req fun newReq => doRequest t newReq rest) with ⟨tr, resp, err⟩
  cases err <;> simp [normalizeRes]

theorem doRequest_wrap_trace (t : Transport) (req : Request) (ids : List Nat) :
    (doRequest t req (ids.map wrap)).1 =
      ids.map Event.pre ++ [Event.send req] ++ (ids.map Event.post).reverse := by
  induction ids with
  | nil => simp [doRequest]
  | cons k rest ih =>
    simp only [List.map_cons, doRequest_cons, wrap, ih]
    simp

theorem doRequest_wrap_erring (t : Transport) (req : Request) (ids : List Nat)
    (r0 : Option Response) (e : GoErr) (rest : List Interceptor) :
    doRequest t req (ids.map wrap ++ erring r0 e :: rest) =
      (ids.map Event.pre ++ (ids.map Event.post).reverse, (none, some e)) := by
  induction ids with
  | nil => simp [doRequest_cons, erring, normalizeRes]
  | cons k tl ih =>
    simp only [List.map_cons, List.cons_append, doRequest_cons, wrap, ih]
    simp [normalizeRes]

theorem doRequest_no_both (t : Transport)
    (h : ∀ q, ((t q).2).isSome = true → (t q).1 = none) :
    ∀ (its : List Interceptor) (req : Request),
      (((doRequest t req its).2.2)).isSome = true → (doRequest t req its).2.1 = none := by
  intro its
  induction its with
  | nil =>
    intro req hs
    simpa [doRequest] using h req (by simpa [doRequest] using hs)
  | cons i rest _ =>
    intro req hs
    rw [doRequest_cons] at hs ⊢
    rcases hr : (i req fun newReq => doRequest t newReq rest).2 with ⟨resp, err⟩
    cases err <;> simp [hr, normalizeRes] at hs ⊢

theorem processResponseContent_error_not_failed (decode : Decoder) (out : Entity)
    (resp : Response) (e : GoErr)
    (h : processResponseContent decode out resp = .error e) :
    e.isFailedResponse = false := by
  unfold processResponseContent at h
  repeat' split at h
  all_goals (try (rw [Except.error.injEq] at h; subst h))
  all_goals simp_all [GoErr.isFailedResponse]

theorem intercept_preserves_creds (exch : AuthExchange) (now : Int) (a : AuthImpl)
    (req : Request) :
    (intercept exch now a req).state.username = a.username ∧
    (intercept exch now a req).state.password = a.password ∧
    (intercept exch now a req).state.apikey = a.apikey := by
  by_cases h : now > a.tokenExpiration
  · cases hx : exch (buildAuthPayload a) <;> simp [intercept, h, authenticate, hx]
  · simp [intercept, h]

theorem intercept_payloadSent_eq (exch : AuthExchange) (now : Int) (a : AuthImpl)
    (req : Request) :
    (intercept exch now a req).payloadSent =
      if now > a.tokenExpiration then some (buildAuthPayload a) else none := by
  by_cases h : now > a.tokenExpiration
  · cases hx : exch (buildAuthPayload a) <;> simp [intercept, h, authenticate, hx]
  · simp [intercept, h]

theorem runCalls_within_window (exch : AuthExchange) (req : Request) (a : AuthImpl)
    (times : List Int) (h : ∀ s ∈ times, s ≤ a.tokenExpiration) :
    runCalls exch req a times = (a, []) := by
  induction times with
  | nil => rfl
  | cons s rest ih =>
    have hs : ¬ (s > a.tokenExpiration) := not_lt.mpr (h s (by simp))
    simp [runCalls, intercept, hs, ih (fun x hx => h x (by simp [hx]))]

theorem runCalls_payloads_apikey (exch : AuthExchange) (req : Request) :
    ∀ (times : List Int) (a : AuthImpl), a.apikey ≠ "" →
      ∀ p ∈ (runCalls exch req a times).2, p = .apikeyCreds a.username a.apikey := by
  intro times
  induction times with
  | nil => intro a _ p hp; simp [runCalls] at hp
  | cons now rest ih =>
    intro a ha p hp
    simp only [runCalls, List.mem_append] at hp
    rcases hp with h1 | h2
    · rw [intercept_payloadSent_eq] at h1
      by_cases hn : now > a.tokenExpiration
      · rw [if_pos hn] at h1
        simp only [Option.toList_some, List.mem_singleton] at h1
        subst h1
        simp [buildAuthPayload, ha]
      · rw [if_neg hn] at h1
        simp at h1
    · have hc := intercept_preserves_creds exch now a req
      have := ih (intercept exch now a req).state (by rw [hc.2.2]; exact ha) p h2
      rw [this, hc.1, hc.2.2]

/-! ## Claim theorems -/

/-- C1: `doRequest` with an empty registered interceptor list performs the
actual network send and returns the transport's result as-is; with a
non-empty list it invokes the head interceptor with the request and a
continuation that invokes the chain on the remaining list (normalizing an
error result to a nil response); consequently, for logging interceptors
registered in order, the event trace shows each interceptor's pre-`next`
mark in registration order before the single network send, and each
post-`next` mark afterwards in reverse registration order. -/
theorem C1_chain_order (t : Transport) (req : Request) :
    doRequest t req (registerAll []) = ([Event.send req], t req) ∧
    (∀ (i : Interceptor) (rest : List Interceptor),
      doRequest t req (i :: rest) =
        (let r := i req (fun newReq => doRequest t newReq rest)
         (r.1, normalizeRes r.2))) ∧
    (∀ ids : List Nat,
      (doRequest t req (registerAll (ids.map wrap))).1 =
        ids.map Event.pre ++ [Event.send req] ++ (ids.map Event.post).reverse) := by
  refine ⟨by simp [registerAll, doRequest], fun i rest => doRequest_cons t i rest req, ?_⟩
  intro ids
  rw [registerAll_eq]
  exact doRequest_wrap_trace t req ids

/-- C4: an interceptor that returns an error without calling `next`
short-circuits the chain: no network send event occurs anywhere in the
exchange's trace, and the interceptor's error (wrapped by Exchange as a
failed-send error) is the exchange's result. -/
theorem C4_short_circuit (encode : Encoder) (decode : Decoder) (t : Transport)
    (ids : List Nat) (e : GoErr) (rest : List Interceptor) (urlStr : String)
    (reqIn respOut : Option Entity) (b : Body)
    (hb : buildBodyReader encode reqIn = .ok b) :
    ((exchangeModel encode decode t (ids.map wrap ++ erring none e :: rest)
        urlStr reqIn respOut).1.all (fun ev => !ev.isSend) = true) ∧
    (exchangeModel encode decode t (ids.map wrap ++ erring none e :: rest)
        urlStr reqIn respOut).2.result = some (.wrapped "failed to send request" e) := by
  simp only [exchangeModel, hb, doRequest_wrap_erring]
  constructor
  · simp only [List.all_eq_true, List.mem_append, List.mem_reverse, List.mem_map]
    rintro ev (⟨k, _, rfl⟩ | ⟨k, _, rfl⟩) <;> simp [Event.isSend]
  · simp [finishExchange]

/-- C4 witness: the short-circuit theorem applied at a concrete exchange
with one logging interceptor followed by a failing interceptor. -/
theorem C4_short_circuit_witness :
    ((exchangeModel sampleEncode sampleDecode sampleTransport
        ([7].map wrap ++ erring none sampleErr :: []) "u" none none).1.all
        (fun ev => !ev.isSend) = true) ∧
    (exchangeModel sampleEncode sampleDecode sampleTransport
        ([7].map wrap ++ erring none sampleErr :: []) "u" none none).2.result =
      some (.wrapped "failed to send request" sampleErr) :=
  C4_short_circuit sampleEncode sampleDecode sampleTransport [7] sampleErr []
    "u" none none .noBody rfl

/-- C10: when an interceptor returns a response alongside a non-nil error,
`doRequest` discards the response and propagates `(nil, error)`; and under
the transport contract that a transport error comes with a nil response,
no invocation of the chain ever returns both a non-nil response and a
non-nil error. -/
theorem C10_error_nil_response (t : Transport) (req : Request) (r : Response)
    (e : GoErr) (rest : List Interceptor) :
    doRequest t req (erring (some r) e :: rest) = ([], (none, some e)) ∧
    ((∀ q, ((t q).2).isSome = true → (t q).1 = none) →
      ∀ (its : List Interceptor) (req2 : Request),
        (((doRequest t req2 its).2.2)).isSome = true →
        (doRequest t req2 its).2.1 = none) := by
  constructor
  · simp [doRequest_cons, erring, normalizeRes]
  · intro h its req2
    exact doRequest_no_both t h its req2

/-- C10 witness: the discard theorem applied at a concrete erring
interceptor and a concrete error-returning transport. -/
theorem C10_error_nil_response_witness :
    doRequest sampleTransportErr sampleReq (erring (some sampleResp) sampleErr :: []) =
      ([], (none, some sampleErr)) ∧
    (doRequest sampleTransportErr sampleReq []).2.1 = none :=
  ⟨(C10_error_nil_response sampleTransportErr sampleReq sampleResp sampleErr []).1,
   (C10_error_nil_response sampleTransportErr sampleReq sampleResp sampleErr []).2
     (fun _ _ => rfl) [] sampleReq rfl⟩

/-- C3: a completed exchange classifies a response with status code ≥ 300
(300 itself included) as failure: the body is captured, the body is
closed, and the result is a `FailedResponseError` carrying the status
code, the status line, and an entity whose content type is the response's
Content-Type header and whose content is the captured bytes; a status code
below 300 (299 in particular) never yields a top-level
`FailedResponseError`. -/
theorem C3_status_boundary (decode : Decoder) (respOut : Option Entity) (resp : Response) :
    (resp.statusCode ≥ 300 →
      finishExchange decode respOut (some resp, none) =
        ⟨true,
         some (.failedResponse resp.statusCode resp.status
           ⟨resp.contentTypeHeader, .bytes resp.body⟩),
         respOut⟩) ∧
    (resp.statusCode < 300 →
      ∀ e, (finishExchange decode respOut (some resp, none)).result = some e →
        e.isFailedResponse = false) := by
  constructor
  · intro h
    simp [finishExchange, h, buildFailedResponseError]
  · intro h e he
    have hn : ¬ (resp.statusCode ≥ 300) := by omega
    simp only [finishExchange, if_neg hn] at he
    rcases respOut with _ | out
    · simp only [closeAndFinish] at he
      rcases hc : resp.closeErr with _ | c <;> simp [hc] at he
      rw [← he]
      rfl
    · rcases hp : processResponseContent decode out resp with e2 | outF
      · simp only [hp] at he
        simp only [Option.some.injEq] at he
        subst he
        exact processResponseContent_error_not_failed decode out resp e2 hp
      · simp only [hp, closeAndFinish] at he
        rcases hc : resp.closeErr with _ | c <;> simp [hc] at he
        rw [← he]
        rfl

/-- C3 witness: the boundary theorem applied at status 300 (failure with
the captured entity) and status 299 (no `FailedResponseError`). -/
theorem C3_status_boundary_witness :
    finishExchange sampleDecode none (some { sampleResp with statusCode := 300 }, none) =
      ⟨true, some (.failedResponse 300 "200 OK" ⟨"application/json", .bytes [104, 105]⟩),
       none⟩ ∧
    ((finishExchange sampleDecode none
        (some { sampleResp with statusCode := 299, closeErr := some sampleErr }, none)).result =
      some (.wrapped "failed to close response body" sampleErr)) ∧
    GoErr.isFailedResponse (.wrapped "failed to close response body" sampleErr) = false :=
  ⟨(C3_status_boundary sampleDecode none { sampleResp with statusCode := 300 }).1
     (by decide),
   by decide,
   (C3_status_boundary sampleDecode none
       { sampleResp with statusCode := 299, closeErr := some sampleErr }).2
     (by decide) _ (by decide)⟩

/-- C8: on every exit path on which a response was received, the response
body is closed; on the failed-response path the close error is discarded
in favor of the `FailedResponseError`, on the content-processing-error
path the close error is discarded in favor of that error, and on the pure
success paths (no response entity, or processing succeeded) a close error
is returned wrapped while a clean close yields success. -/
theorem C8_body_always_closed (decode : Decoder) (respOut : Option Entity) (resp : Response) :
    ((finishExchange decode respOut (some resp, none)).bodyClosed = true) ∧
    (resp.statusCode ≥ 300 →
      (finishExchange decode respOut (some resp, none)).result =
        some (buildFailedResponseError resp)) ∧
    (resp.statusCode < 300 → ∀ out e, respOut = some out →
      processResponseContent decode out resp = .error e →
      (finishExchange decode respOut (some resp, none)).result = some e) ∧
    (resp.statusCode < 300 → respOut = none →
      (finishExchange decode respOut (some resp, none)).result =
        resp.closeErr.map (fun e => .wrapped "failed to close response body" e)) ∧
    (resp.statusCode < 300 → ∀ out outF, respOut = some out →
      processResponseContent decode out resp = .ok outF →
      (finishExchange decode respOut (some resp, none)).result =
        resp.closeErr.map (fun e => .wrapped "failed to close response body" e)) := by
  refine ⟨?_, ?_, ?_, ?_, ?_⟩
  · by_cases h : resp.statusCode ≥ 300
    · simp [finishExchange, h]
    · simp only [finishExchange, if_neg h]
      rcases respOut with _ | out
      · rcases hc : resp.closeErr with _ | c <;> simp [closeAndFinish, hc]
      · rcases hp : processResponseContent decode out resp with e2 | outF
        · simp [hp]
        · rcases hc : resp.closeErr with _ | c <;> simp [hp, closeAndFinish, hc]
  · intro h
    simp [finishExchange, h]
  · intro h out e hro hp
    subst hro
    have hn : ¬ (resp.statusCode ≥ 300) := by omega
    simp [finishExchange, if_neg hn, hp]
  · intro h hro
    subst hro
    have hn : ¬ (resp.statusCode ≥ 300) := by omega
    simp only [finishExchange, if_neg hn]
    rcases hc : resp.closeErr with _ | c <;> simp [closeAndFinish, hc]
  · intro h out outF hro hp
    subst hro
    have hn : ¬ (resp.statusCode ≥ 300) := by omega
    simp only [finishExchange, if_neg hn, hp]
    rcases hc : resp.closeErr with _ | c <;> simp [closeAndFinish, hc]

/-- C8 witness: the close-discipline theorem applied at a failed response
with a failing close (close error discarded) and at a pure success with a
failing close (close error returned wrapped). -/
theorem C8_body_always_closed_witness :
    ((finishExchange sampleDecode none
        (some { sampleResp with statusCode := 500, closeErr := some sampleErr }, none)).result =
      some (buildFailedResponseError
        { sampleResp with statusCode := 500, closeErr := some sampleErr })) ∧
    ((finishExchange sampleDecode none
        (some { sampleResp with closeErr := some sampleErr }, none)).bodyClosed = true) ∧
    ((finishExchange sampleDecode none
        (some { sampleResp with closeErr := some sampleErr }, none)).result =
      (some sampleErr).map (fun e => .wrapped "failed to close response body" e)) :=
  ⟨(C8_body_always_closed sampleDecode none
      { sampleResp with statusCode := 500, closeErr := some sampleErr }).2.1 (by decide),
   (C8_body_always_closed sampleDecode none
      { sampleResp with closeErr := some sampleErr }).1,
   (C8_body_always_closed sampleDecode none
      { sampleResp with closeErr := some sampleErr }).2.2.2.1 (by decide) rfl⟩

/-- C5: the request body is determined by shape dispatch on the entity:
nil entity → no body; string content → its bytes verbatim; byte content →
verbatim; reader content → passed through; JSON content type with a
non-nil structured value → the JSON serialization; any unsupported
combination makes the exchange return the unsupported-entity error with an
empty event trace, i.e. before any network activity. -/
theorem C5_body_shape_dispatch (encode : Encoder) (decode : Decoder) (t : Transport)
    (its : List Interceptor) (urlStr : String) (respOut : Option Entity) :
    buildBodyReader encode none = .ok .noBody ∧
    (∀ ct s, buildBodyReader encode (some ⟨ct, .str s⟩) = .ok (.bytes (strBytes s))) ∧
    (∀ ct b, buildBodyReader encode (some ⟨ct, .bytes b⟩) = .ok (.bytes b)) ∧
    (∀ ct hd, buildBodyReader encode (some ⟨ct, .reader hd⟩) = .ok (.stream hd)) ∧
    (∀ v bs, encode (.structured v) = .ok bs →
      buildBodyReader encode (some (NewJsonEntity (.structured v))) = .ok (.bytes bs)) ∧
    (∀ en, reqShapeSupported en = false →
      exchangeModel encode decode t its urlStr (some en) respOut =
        ([], ⟨false, some (.msg "unsupported combination of request content and type"),
          respOut⟩)) := by
  refine ⟨rfl, fun ct s => rfl, fun ct b => rfl, fun ct hd => rfl, ?_, ?_⟩
  · intro v bs hv
    simp [buildBodyReader, NewJsonEntity, hv]
  · intro en hen
    have hb : buildBodyReader encode (some en) =
        .error (.msg "unsupported combination of request content and type") := by
      rcases hc : en.content with _ | s | b | hd | hd | v <;>
        simp [reqShapeSupported, hc] at hen <;>
        simp [buildBodyReader, hc, hen]
    simp [exchangeModel, hb]

/-- C5 witness: the dispatch theorem applied at a concrete structured JSON
entity and at a concrete unsupported entity (plain-text content type with
a structured value). -/
theorem C5_body_shape_dispatch_witness :
    buildBodyReader sampleEncode (some (NewJsonEntity (.structured 3))) =
      .ok (.bytes [123, 125]) ∧
    exchangeModel sampleEncode sampleDecode sampleTransport [] "u"
        (some ⟨TextType, .structured 3⟩) none =
      ([], ⟨false, some (.msg "unsupported combination of request content and type"),
        none⟩) :=
  ⟨(C5_body_shape_dispatch sampleEncode sampleDecode sampleTransport [] "u" none).2.2.2.2.1
     3 [123, 125] rfl,
   (C5_body_shape_dispatch sampleEncode sampleDecode sampleTransport [] "u" none).2.2.2.2.2
     ⟨TextType, .structured 3⟩ (by decide)⟩

/-- C9: a non-nil request entity with JSON content type but a nil content
reference yields the unsupported-entity error (not a JSON `null` body);
and the JSON encoder is consulted only when the content is non-nil and not
of the string/bytes/reader shapes — for all other entities the result of
`buildBodyReader` is independent of the encoder. -/
theorem C9_json_nil_unsupported (encodeA encodeB : Encoder) :
    buildBodyReader encodeA (some (NewJsonEntity .nilC)) =
      .error (.msg "unsupported combination of request content and type") ∧
    (∀ en, usesJsonEncoding en = false →
      buildBodyReader encodeA (some en) = buildBodyReader encodeB (some en)) ∧
    (∀ v, usesJsonEncoding (NewJsonEntity (.structured v)) = true) := by
  refine ⟨by simp [buildBodyReader, NewJsonEntity], ?_, fun v => by simp [usesJsonEncoding, NewJsonEntity]⟩
  intro en hen
  rcases hc : en.content with _ | s | b | hd | hd | v <;>
    simp [usesJsonEncoding, hc] at hen ⊢ <;>
    simp [buildBodyReader, hc, hen]

/-- C9 witness: the nil-content theorem applied with two everywhere-
different encoders at a concrete non-JSON structured entity. -/
theorem C9_json_nil_unsupported_witness :
    buildBodyReader sampleEncode (some (NewJsonEntity .nilC)) =
      .error (.msg "unsupported combination of request content and type") ∧
    buildBodyReader sampleEncode (some ⟨TextType, .structured 3⟩) =
      buildBodyReader sampleEncodeB (some ⟨TextType, .structured 3⟩) :=
  ⟨(C9_json_nil_unsupported sampleEncode sampleEncodeB).1,
   (C9_json_nil_unsupported sampleEncode sampleEncodeB).2.1
     ⟨TextType, .structured 3⟩ (by decide)⟩

/-- C2 counterexample: at a call made exactly at the cached expiration
time (now = expires_at = 5), the claim says the authentication
sub-exchange is performed (current time is at or after expires_at), but
`intercept` — embedding Go's strict `time.Now().After` — performs no
sub-exchange. -/
theorem C2_at_expiry_counterexample :
    (5 : Int) ≥ sampleAuthState.tokenExpiration ∧
    (intercept sampleAuthExchange 5 sampleAuthState sampleReq).didRefresh = false ∧
    (intercept sampleAuthExchange 5 sampleAuthState sampleReq).payloadSent = none := by
  refine ⟨by decide, ?_, ?_⟩ <;> decide

/-- C2 (amended): the authentication sub-exchange is performed if and only
if the current time is strictly after the cached expires_at (no token yet,
i.e. the zero expiration, behaves as already expired for any positive
time); repeated calls at times at or before expires_at perform no
sub-exchange and leave the state unchanged, and a call strictly after
expiry performs exactly one new sub-exchange. -/
theorem C2_refresh_iff_strictly_after (exch : AuthExchange) (now : Int) (a : AuthImpl)
    (req : Request) :
    ((intercept exch now a req).didRefresh = decide (now > a.tokenExpiration)) ∧
    ((intercept exch now a req).payloadSent.isSome = decide (now > a.tokenExpiration)) ∧
    (∀ times : List Int, times.all (fun s => decide (s ≤ a.tokenExpiration)) = true →
      runCalls exch req a times = (a, [])) ∧
    (now > a.tokenExpiration → (runCalls exch req a [now]).2.length = 1) := by
  refine ⟨?_, ?_, ?_, ?_⟩
  · by_cases h : now > a.tokenExpiration
    · cases hx : exch (buildAuthPayload a) <;> simp [intercept, h, authenticate, hx]
    · simp [intercept, h]
  · by_cases h : now > a.tokenExpiration
    · cases hx : exch (buildAuthPayload a) <;> simp [intercept, h, authenticate, hx]
    · simp [intercept, h]
  · intro times ht
    refine runCalls_within_window exch req a times ?_
    intro s hs
    have := List.all_eq_true.mp ht s hs
    exact of_decide_eq_true this
  · intro h
    cases hx : exch (buildAuthPayload a) <;>
      simp [runCalls, intercept, h, authenticate, hx]

/-- C2 (amended) witness: the amended theorem applied at a token valid
until time 5 — calls at times 4 and 5 perform no sub-exchange, a call at
time 6 performs exactly one. -/
theorem C2_refresh_iff_strictly_after_witness :
    runCalls sampleAuthExchange sampleReq sampleAuthState [4, 5] = (sampleAuthState, []) ∧
    (runCalls sampleAuthExchange sampleReq sampleAuthState [6]).2.length = 1 :=
  ⟨(C2_refresh_iff_strictly_after sampleAuthExchange 6 sampleAuthState sampleReq).2.2.1
     [4, 5] (by decide),
   (C2_refresh_iff_strictly_after sampleAuthExchange 6 sampleAuthState sampleReq).2.2.2
     (by decide)⟩

/-- C6: when the nested authentication exchange fails, `intercept` returns
the wrapped error, does not invoke `next`, and leaves the cached token and
expiry unchanged; when it succeeds, the cached token and expiry are
updated from the decoded response and `next` is invoked with the
`x-auth-token` header set to the new token. -/
theorem C6_auth_failure_propagates (now : Int) (a : AuthImpl) (req : Request)
    (e : GoErr) (r : IdentityAuthResp) (h : now > a.tokenExpiration) :
    (intercept (fun _ => .error e) now a req =
      ⟨a, true, some (buildAuthPayload a), false, none,
        some (.wrapped "failed to issue token request" e)⟩) ∧
    ((intercept (fun _ => .ok r) now a req).state =
      { a with token := r.tokenId, tokenExpiration := r.tokenExpires }) ∧
    ((intercept (fun _ => .ok r) now a req).nextCalled = true) ∧
    ((intercept (fun _ => .ok r) now a req).err = none) ∧
    ((intercept (fun _ => .ok r) now a req).sentReq =
      some (setHeader req "x-auth-token" r.tokenId)) := by
  refine ⟨?_, ?_, ?_, ?_, ?_⟩ <;> simp [intercept, h, authenticate]

/-- C6 witness: the failure/success theorem applied at a concrete expired
state with a failing and a succeeding identity exchange. -/
theorem C6_auth_failure_propagates_witness :
    (intercept (fun _ => .error sampleErr) 6 sampleAuthState sampleReq =
      ⟨sampleAuthState, true, some (buildAuthPayload sampleAuthState), false, none,
        some (.wrapped "failed to issue token request" sampleErr)⟩) ∧
    ((intercept (fun _ => .ok ⟨"tok2", 100⟩) 6 sampleAuthState sampleReq).state =
      { sampleAuthState with token := "tok2", tokenExpiration := 100 }) ∧
    ((intercept (fun _ => .ok ⟨"tok2", 100⟩) 6 sampleAuthState sampleReq).sentReq =
      some (setHeader sampleReq "x-auth-token" "tok2")) :=
  ⟨(C6_auth_failure_propagates 6 sampleAuthState sampleReq sampleErr ⟨"tok2", 100⟩
      (by decide)).1,
   (C6_auth_failure_propagates 6 sampleAuthState sampleReq sampleErr ⟨"tok2", 100⟩
      (by decide)).2.1,
   (C6_auth_failure_propagates 6 sampleAuthState sampleReq sampleErr ⟨"tok2", 100⟩
      (by decide)).2.2.2.2⟩

/-- C7: authenticator construction returns a config error when the
username is empty, and when both password and api-key are empty; when both
credentials are provided the api-key takes precedence — the credentials
payload is the api-key flavor, `intercept` never changes the stored
credentials, and every sub-exchange performed by any sequence of
intercepted calls sends the api-key-flavored payload. -/
theorem C7_construction_validation (urlParse : Except String Unit)
    (username password apikey : String) (exch : AuthExchange) (now : Int)
    (a : AuthImpl) (req : Request) :
    (IdentityV2Authenticator urlParse "" password apikey =
      .error (.msg "username is required")) ∧
    (username ≠ "" → IdentityV2Authenticator urlParse username "" "" =
      .error (.msg "password or Apikey is required")) ∧
    (a.apikey ≠ "" → buildAuthPayload a = .apikeyCreds a.username a.apikey) ∧
    ((intercept exch now a req).state.username = a.username ∧
     (intercept exch now a req).state.password = a.password ∧
     (intercept exch now a req).state.apikey = a.apikey) ∧
    (∀ times : List Int, a.apikey ≠ "" →
      ∀ p ∈ (runCalls exch req a times).2, p = .apikeyCreds a.username a.apikey) := by
  refine ⟨by simp [IdentityV2Authenticator], ?_, ?_, ?_, ?_⟩
  · intro hu
    simp [IdentityV2Authenticator, hu]
  · intro hk
    simp [buildAuthPayload, hk]
  · exact intercept_preserves_creds exch now a req
  · intro times ha p hp
    exact runCalls_payloads_apikey exch req times a ha p hp

/-- C7 witness: the validation theorem applied at concrete credentials —
missing username rejected, missing password and api-key rejected, and with
both provided the payloads of two expired calls are both api-key
flavored. -/
theorem C7_construction_validation_witness :
    (IdentityV2Authenticator (.ok ()) "" "pw" "key" =
      .error (.msg "username is required")) ∧
    (IdentityV2Authenticator (.ok ()) "user" "" "" =
      .error (.msg "password or Apikey is required")) ∧
    buildAuthPayload ⟨"user", "pw", "key", "", 0⟩ = .apikeyCreds "user" "key" :=
  ⟨(C7_construction_validation (.ok ()) "user" "pw" "key" sampleAuthExchange 6
      ⟨"user", "pw", "key", "", 0⟩ sampleReq).1,
   (C7_construction_validation (.ok ()) "user" "pw" "key" sampleAuthExchange 6
      ⟨"user", "pw", "key", "", 0⟩ sampleReq).2.1 (by decide),
   (C7_construction_validation (.ok ()) "user" "pw" "key" sampleAuthExchange 6
      ⟨"user", "pw", "key", "", 0⟩ sampleReq).2.2.1 (by decide)⟩

end RestClient
